import Mathlib

/-!
# tun.c : tun device functions of the clat daemon

A shallow embedding of `src/tun.c`.  The C functions are translated one by
one; the operating system they talk to is an explicit state (`World`) that
is threaded through every call, together with a record (`Kernel`) of the
decisions that the program cannot influence: whether a system call is
rejected, which interface name the tun driver confirms, which value an
ethtool query reports.  Every system call appends itself to `World.trace`,
so that "which requests were issued, and in which order" is a statement
about a list.

Constants that come from system headers (`IFNAMSIZ`, `IFF_TUN`,
`O_NONBLOCK`, ...) are fields of `Platform`; `linux` holds the values of
the Linux headers.
-/

namespace Tun

/-! ## C strings -/

/-- The terminator of a C string. -/
def NUL : Char := Char.ofNat 0

/-- The string stored in a character array: the characters before the first
terminator. -/
def cstr (buf : List Char) : List Char :=
  buf.takeWhile (fun c => c != NUL)

/-- `memset(dst, 0, n)` on an array of `n` characters. -/
def zeroed (n : Nat) : List Char :=
  List.replicate n NUL

/-- `strncpy(dst, src, n)`: writes exactly `n` characters to `dst`, the first
`min n (strlen src)` characters of `src` followed by terminators; the
characters of `dst` from position `n` on are untouched. -/
def strncpy (dst src : List Char) (n : Nat) : List Char :=
  (cstr src).take n ++ List.replicate (n - (cstr src).length) NUL ++ dst.drop n

/-- `strlcpy(dst, src, size)`: for `size > 0` writes the first
`min (size - 1) (strlen src)` characters of `src` and one terminator; the rest
of `dst` is untouched.  For `size = 0` nothing is written. -/
def strlcpy (dst src : List Char) (size : Nat) : List Char :=
  if size = 0 then dst
  else (cstr src).take (size - 1) ++ [NUL] ++
    dst.drop (min (size - 1) (cstr src).length + 1)

/-- `strcpy(dst, src)`: writes the string of `src` and its terminator; the rest
of `dst` is untouched. -/
def strcpy (dst src : List Char) : List Char :=
  cstr src ++ [NUL] ++ dst.drop ((cstr src).length + 1)

/-! ## Requests, system calls, the state of the system -/

/-- Constants of the system headers used by `tun.c`. -/
structure Platform where
  IFNAMSIZ : Nat
  IFF_TUN : Int
  O_RDWR : Nat
  O_NONBLOCK : Nat
  AF_INET : Int
  SOCK_DGRAM : Int
  ETHTOOL_GGRO : Int
  ETHTOOL_GRXCSUM : Int
  EBADF : Nat

/-- The values of the Linux headers. -/
def linux : Platform where
  IFNAMSIZ := 16
  IFF_TUN := 1
  O_RDWR := 2
  O_NONBLOCK := 2048
  AF_INET := 2
  SOCK_DGRAM := 2
  ETHTOOL_GGRO := 43
  ETHTOOL_GRXCSUM := 20
  EBADF := 9

/-- The part of `struct ifreq` that `tun_alloc` fills: the name array and the
flags member. -/
structure ifreq where
  ifr_name : List Char
  ifr_flags : Int
deriving DecidableEq, Repr

/-- The structure `struct ethtool_value`: two unsigned 32-bit members. -/
structure ethtool_value where
  cmd : Nat
  data : Nat
deriving DecidableEq, Repr

/-- A system call as issued by the program, with its arguments. -/
inductive Syscall where
  | open_ (path : String) (oflag : Nat)
  | close (fd : Int)
  | socket (domain type protocol : Int)
  | ioctl_TUNSETIFF (fd : Int) (ifr : ifreq)
  | ioctl_TUNSETNOCSUM (fd : Int) (arg : Int)
  | ioctl_SIOCETHTOOL (fd : Int) (ifr_name : List Char) (eval : ethtool_value)
  | fcntl_GETFL (fd : Int)
  | fcntl_SETFL (fd : Int) (arg : Int)
deriving DecidableEq, Repr

/-- The state of the process as the operating system sees it. -/
structure World where
  /-- The descriptors that are open. -/
  fds : List Nat
  /-- The status flags of each descriptor. -/
  fl : Nat → Nat
  /-- The error number left by the last failed system call. -/
  errno : Nat
  /-- Every system call issued so far, oldest first. -/
  trace : List Syscall

/-- What the program cannot decide.  Every answer may depend on the whole
state, the history of system calls included. -/
structure Kernel where
  /-- `some e`: the call fails with error number `e`; `none`: it goes through. -/
  reject : World → Syscall → Option Nat
  /-- The name array the tun driver writes back into an accepted `TUNSETIFF`
  request. -/
  confirmed_name : World → Int → ifreq → List Char
  /-- The `data` member an accepted `SIOCETHTOOL` query writes back. -/
  feature_data : World → Int → List Char → ethtool_value → Nat

/-- Records a system call. -/
def World.log (w : World) (c : Syscall) : World :=
  { w with trace := w.trace ++ [c] }

/-- A failed system call: recorded, error number stored. -/
def World.fail (w : World) (c : Syscall) (e : Nat) : World :=
  { w with trace := w.trace ++ [c], errno := e }

/-- Whether `fd` names an open descriptor. -/
def World.isOpen (w : World) (fd : Int) : Bool :=
  decide (0 ≤ fd) && decide (fd.toNat ∈ w.fds)

/-- Search for the lowest number from `n` on that is not in `fds`. -/
def lowestFreeFrom (fds : List Nat) : Nat → Nat → Nat
  | 0, n => n
  | fuel + 1, n => if n ∈ fds then lowestFreeFrom fds fuel (n + 1) else n

/-- The lowest descriptor number that is not open: the number a call that
creates a descriptor returns. -/
def lowestFree (fds : List Nat) : Nat :=
  lowestFreeFrom fds fds.length 0

/-- A system call that creates a descriptor went through: recorded, the
lowest free number is now open with status flags `oflag`. -/
def World.alloc (w : World) (c : Syscall) (oflag : Nat) : World :=
  { w with trace := w.trace ++ [c],
           fds := lowestFree w.fds :: w.fds,
           fl := Function.update w.fl (lowestFree w.fds) oflag }

/-- A `close` on an open descriptor: recorded, the descriptor is no longer
open. -/
def World.release (w : World) (fd : Int) : World :=
  { w with trace := w.trace ++ [.close fd],
           fds := w.fds.filter (fun d => d != fd.toNat) }

/-- The call `open(path, oflag)`. -/
def sys_open (K : Kernel) (w : World) (path : String) (oflag : Nat) : Int × World :=
  match K.reject w (.open_ path oflag) with
  | some e => (-1, w.fail (.open_ path oflag) e)
  | none => ((lowestFree w.fds : Int), w.alloc (.open_ path oflag) oflag)

/-- The call `socket(domain, type, protocol)`. -/
def sys_socket (P : Platform) (K : Kernel) (w : World) (domain type protocol : Int) :
    Int × World :=
  match K.reject w (.socket domain type protocol) with
  | some e => (-1, w.fail (.socket domain type protocol) e)
  | none => ((lowestFree w.fds : Int), w.alloc (.socket domain type protocol) P.O_RDWR)

/-- The call `close(fd)`.  A descriptor that is not open is `EBADF`.  On an open
descriptor the call may still report an error (`EINTR`, `EIO`) and store its
error number; the descriptor is released in either case. -/
def sys_close (P : Platform) (K : Kernel) (w : World) (fd : Int) : Int × World :=
  if w.isOpen fd then
    match K.reject w (.close fd) with
    | some e => (-1, { w.release fd with errno := e })
    | none => (0, w.release fd)
  else (-1, w.fail (.close fd) P.EBADF)

/-- The call `ioctl(fd, TUNSETIFF, &ifr)`. -/
def sys_ioctl_TUNSETIFF (P : Platform) (K : Kernel) (w : World) (fd : Int) (ifr : ifreq) :
    Int × ifreq × World :=
  if w.isOpen fd then
    match K.reject w (.ioctl_TUNSETIFF fd ifr) with
    | some e => (-1, ifr, w.fail (.ioctl_TUNSETIFF fd ifr) e)
    | none => (0, { ifr with ifr_name := K.confirmed_name w fd ifr },
                w.log (.ioctl_TUNSETIFF fd ifr))
  else (-1, ifr, w.fail (.ioctl_TUNSETIFF fd ifr) P.EBADF)

/-- The call `ioctl(fd, TUNSETNOCSUM, arg)`. -/
def sys_ioctl_TUNSETNOCSUM (P : Platform) (K : Kernel) (w : World) (fd : Int) (arg : Int) :
    Int × World :=
  if w.isOpen fd then
    match K.reject w (.ioctl_TUNSETNOCSUM fd arg) with
    | some e => (-1, w.fail (.ioctl_TUNSETNOCSUM fd arg) e)
    | none => (0, w.log (.ioctl_TUNSETNOCSUM fd arg))
  else (-1, w.fail (.ioctl_TUNSETNOCSUM fd arg) P.EBADF)

/-- The call `ioctl(fd, SIOCETHTOOL, &ifr)` with `ifr.ifr_data = &eval`. -/
def sys_ioctl_SIOCETHTOOL (P : Platform) (K : Kernel) (w : World) (fd : Int)
    (ifr_name : List Char) (eval : ethtool_value) : Int × ethtool_value × World :=
  if w.isOpen fd then
    match K.reject w (.ioctl_SIOCETHTOOL fd ifr_name eval) with
    | some e => (-1, eval, w.fail (.ioctl_SIOCETHTOOL fd ifr_name eval) e)
    | none => (0, { eval with data := K.feature_data w fd ifr_name eval },
                w.log (.ioctl_SIOCETHTOOL fd ifr_name eval))
  else (-1, eval, w.fail (.ioctl_SIOCETHTOOL fd ifr_name eval) P.EBADF)

/-- The call `fcntl(fd, F_GETFL)`: the status flags, or `-1`. -/
def sys_fcntl_GETFL (P : Platform) (K : Kernel) (w : World) (fd : Int) : Int × World :=
  if w.isOpen fd then
    match K.reject w (.fcntl_GETFL fd) with
    | some e => (-1, w.fail (.fcntl_GETFL fd) e)
    | none => ((w.fl fd.toNat : Int), w.log (.fcntl_GETFL fd))
  else (-1, w.fail (.fcntl_GETFL fd) P.EBADF)

/-- The call `fcntl(fd, F_SETFL, arg)`: the status flags become `arg`. -/
def sys_fcntl_SETFL (P : Platform) (K : Kernel) (w : World) (fd : Int) (arg : Int) :
    Int × World :=
  if w.isOpen fd then
    match K.reject w (.fcntl_SETFL fd arg) with
    | some e => (-1, w.fail (.fcntl_SETFL fd arg) e)
    | none => (0, { w.log (.fcntl_SETFL fd arg) with
                    fl := Function.update w.fl fd.toNat arg.toNat })
  else (-1, w.fail (.fcntl_SETFL fd arg) P.EBADF)

/-! ## The functions of tun.c -/

/-- `tun_open` (tun.c 36-45): tries to open the tunnel device. -/
def tun_open (P : Platform) (K : Kernel) (w : World) : Int × World :=
  let r := sys_open K w "/dev/tun" P.O_RDWR
  if r.1 < 0 then sys_open K r.2 "/dev/net/tun" P.O_RDWR
  else r

/-- The request `tun_alloc` builds (tun.c 55-61): a zeroed `ifreq` with the
flags set to `IFF_TUN` and, when the first character of `dev` is not the
terminator, the name copied with `strncpy` and the last character of the array
set to the terminator. -/
def tun_alloc_ifr (P : Platform) (dev : List Char) : ifreq :=
  let ifr : ifreq := { ifr_name := zeroed P.IFNAMSIZ, ifr_flags := 0 }
  let ifr := { ifr with ifr_flags := P.IFF_TUN }
  if dev.headD NUL ≠ NUL then
    let ifr := { ifr with ifr_name := strncpy ifr.ifr_name dev P.IFNAMSIZ }
    { ifr with ifr_name := ifr.ifr_name.set (P.IFNAMSIZ - 1) NUL }
  else ifr

/-- `tun_alloc` (tun.c 51-74): creates a tun interface and names it.  `dev` is
the caller's name buffer, `rx_checksum_offloaded` the global of tun.c line 31.
The result is the return value, the name buffer afterwards and the state. -/
def tun_alloc (P : Platform) (K : Kernel) (rx_checksum_offloaded : Int) (w : World)
    (dev : List Char) (fd : Int) : Int × List Char × World :=
  let ifr := tun_alloc_ifr P dev
  let r := sys_ioctl_TUNSETIFF P K w fd ifr
  let err := r.1
  if err < 0 then
    let c := sys_close P K r.2.2 fd
    (err, dev, c.2)
  else
    let dev := strcpy dev r.2.1.ifr_name
    if rx_checksum_offloaded ≠ 0 then
      let n := sys_ioctl_TUNSETNOCSUM P K r.2.2 fd 1
      (0, dev, n.2)
    else (0, dev, r.2.2)

/-- `set_nonblocking` (tun.c 81-87): sets a descriptor to non-blocking mode. -/
def set_nonblocking (P : Platform) (K : Kernel) (w : World) (fd : Int) : Int × World :=
  let r := sys_fcntl_GETFL P K w fd
  let flags := r.1
  if flags = -1 then (flags, r.2)
  else sys_fcntl_SETFL P K r.2 fd (Int.lor flags (P.O_NONBLOCK : Int))

/-- The name array of the query `get_ethtool_feature_val` issues (tun.c 119,
121): the zeroed array, then `strlcpy` of `dev` with the size of the array. -/
def ethtool_ifr_name (P : Platform) (d : List Char) : List Char :=
  strlcpy (zeroed P.IFNAMSIZ) d P.IFNAMSIZ

/-- The `ethtool_value` of that query (tun.c 120, 122, 123): `cmd` converted to
the unsigned 32-bit member, `data` zero. -/
def ethtool_eval (cmd : Int) : ethtool_value :=
  { cmd := (cmd % 2 ^ 32).toNat, data := 0 }

/-- `get_ethtool_feature_val` (tun.c 106-137): whether an ethtool feature is
enabled on a device.  `dev = none` is the null pointer. -/
def get_ethtool_feature_val (P : Platform) (K : Kernel) (w : World)
    (dev : Option (List Char)) (cmd : Int) : Int × World :=
  match dev with
  | none => (0, w)
  | some d =>
    let s := sys_socket P K w P.AF_INET P.SOCK_DGRAM 0
    let fd := s.1
    if fd < 0 then (0, s.2)
    else
      let q := sys_ioctl_SIOCETHTOOL P K s.2 fd (ethtool_ifr_name P d) (ethtool_eval cmd)
      if q.1 = -1 then
        let c := sys_close P K q.2.2 fd
        (0, c.2)
      else
        let c := sys_close P K q.2.2 fd
        if q.2.1.data = 0 then (0, c.2)
        else (1, c.2)

/-- `check_csum_offload` (tun.c 145-156): whether GRO and RXCSUM are both
enabled on the device.  The second query is made only when the first one
reported the feature (`&&`). -/
def check_csum_offload (P : Platform) (K : Kernel) (w : World)
    (dev : Option (List Char)) : Int × World :=
  match dev with
  | none => (0, w)
  | some d =>
    let g := get_ethtool_feature_val P K w (some d) P.ETHTOOL_GGRO
    if g.1 ≠ 0 then
      let x := get_ethtool_feature_val P K g.2 (some d) P.ETHTOOL_GRXCSUM
      if x.1 ≠ 0 then (1, x.2)
      else (0, x.2)
    else (0, g.2)

/-! ## Concrete systems, used to run the functions -/

/-- A kernel on which `/dev/tun` does not exist (`ENOENT`) and a device query
with an empty name finds no device (`ENODEV`); every other call goes through,
the tun driver confirms the requested name, every feature is reported as
enabled. -/
def K0 : Kernel where
  reject := fun _ c =>
    match c with
    | .open_ "/dev/tun" _ => some 2
    | .ioctl_SIOCETHTOOL _ n _ => if cstr n = [] then some 19 else none
    | _ => none
  confirmed_name := fun _ _ ifr => ifr.ifr_name
  feature_data := fun _ _ _ _ => 1

/-- A kernel that refuses every call with `EPERM`, except that `close` goes
through. -/
def K1 : Kernel where
  reject := fun _ c =>
    match c with
    | .close _ => none
    | _ => some 1
  confirmed_name := fun _ _ ifr => ifr.ifr_name
  feature_data := fun _ _ _ _ => 0

/-- A kernel on which the interface name is taken, so that `TUNSETIFF` fails
with `EBUSY`, and on which `close` reports an input/output error (`EIO`). -/
def K2 : Kernel where
  reject := fun _ c =>
    match c with
    | .ioctl_TUNSETIFF _ _ => some 16
    | .close _ => some 5
    | _ => none
  confirmed_name := fun _ _ ifr => ifr.ifr_name
  feature_data := fun _ _ _ _ => 1

/-- A process with the three standard descriptors open, each read-write. -/
def w0 : World :=
  { fds := [0, 1, 2], fl := fun _ => 2, errno := 0, trace := [] }

/-! ## Descriptor numbers -/

theorem lowestFreeFrom_spec (fds : List Nat) :
    ∀ fuel n, (∀ k, n ≤ k → k < lowestFreeFrom fds fuel n → k ∈ fds) ∧
      (lowestFreeFrom fds fuel n ∈ fds → lowestFreeFrom fds fuel n = n + fuel) := by
  intro fuel
  induction fuel with
  | zero =>
    intro n
    refine ⟨fun k h1 h2 => ?_, fun _ => ?_⟩
    · simp only [lowestFreeFrom] at h2; omega
    · simp [lowestFreeFrom]
  | succ f ih =>
    intro n
    by_cases hn : n ∈ fds
    · have e : lowestFreeFrom fds (f + 1) n = lowestFreeFrom fds f (n + 1) := by
        simp [lowestFreeFrom, hn]
      rw [e]
      refine ⟨fun k h1 h2 => ?_, fun h => ?_⟩
      · rcases Nat.eq_or_lt_of_le h1 with h | h
        · exact h ▸ hn
        · exact (ih (n + 1)).1 k h h2
      · have := (ih (n + 1)).2 h; omega
    · have e : lowestFreeFrom fds (f + 1) n = n := by
        simp [lowestFreeFrom, hn]
      rw [e]
      refine ⟨fun k h1 h2 => ?_, fun h => ?_⟩
      · omega
      · exact absurd h hn

theorem lowestFree_not_mem (fds : List Nat) : lowestFree fds ∉ fds := by
  intro h
  have hs := lowestFreeFrom_spec fds fds.length 0
  have e : lowestFree fds = fds.length := by
    have := hs.2 h
    simpa [lowestFree] using this
  have sub : List.range (fds.length + 1) ⊆ fds := by
    intro k hk
    rw [List.mem_range] at hk
    rcases Nat.eq_or_lt_of_le (Nat.le_of_lt_succ hk) with h1 | h1
    · rw [h1, ← e]; exact h
    · exact hs.1 k (Nat.zero_le _) (by rw [← e] at h1; exact h1)
  have := (List.subperm_of_subset (List.nodup_range _) sub).length_le
  simp at this

theorem filter_ne_cons_lowestFree (fds : List Nat) :
    (lowestFree fds :: fds).filter (fun d => d != lowestFree fds) = fds := by
  have h := lowestFree_not_mem fds
  rw [List.filter_cons_of_neg (by simp)]
  apply List.filter_eq_self.2
  intro a ha
  have : a ≠ lowestFree fds := fun e => h (e ▸ ha)
  simpa using this

/-! ## The state after a system call -/

@[simp] theorem log_fds (w : World) (c : Syscall) : (w.log c).fds = w.fds := rfl
@[simp] theorem log_fl (w : World) (c : Syscall) : (w.log c).fl = w.fl := rfl
@[simp] theorem log_errno (w : World) (c : Syscall) : (w.log c).errno = w.errno := rfl
@[simp] theorem log_trace (w : World) (c : Syscall) : (w.log c).trace = w.trace ++ [c] := rfl
@[simp] theorem fail_fds (w : World) (c : Syscall) (e : Nat) : (w.fail c e).fds = w.fds := rfl
@[simp] theorem fail_fl (w : World) (c : Syscall) (e : Nat) : (w.fail c e).fl = w.fl := rfl
@[simp] theorem fail_errno (w : World) (c : Syscall) (e : Nat) : (w.fail c e).errno = e := rfl
@[simp] theorem fail_trace (w : World) (c : Syscall) (e : Nat) :
    (w.fail c e).trace = w.trace ++ [c] := rfl
@[simp] theorem alloc_fds (w : World) (c : Syscall) (f : Nat) :
    (w.alloc c f).fds = lowestFree w.fds :: w.fds := rfl
@[simp] theorem alloc_errno (w : World) (c : Syscall) (f : Nat) :
    (w.alloc c f).errno = w.errno := rfl
@[simp] theorem alloc_trace (w : World) (c : Syscall) (f : Nat) :
    (w.alloc c f).trace = w.trace ++ [c] := rfl
@[simp] theorem release_fds (w : World) (fd : Int) :
    (w.release fd).fds = w.fds.filter (fun d => d != fd.toNat) := rfl
@[simp] theorem release_fl (w : World) (fd : Int) : (w.release fd).fl = w.fl := rfl
@[simp] theorem release_errno (w : World) (fd : Int) : (w.release fd).errno = w.errno := rfl
@[simp] theorem release_trace (w : World) (fd : Int) :
    (w.release fd).trace = w.trace ++ [.close fd] := rfl

theorem isOpen_congr {w v : World} (h : v.fds = w.fds) (fd : Int) :
    v.isOpen fd = w.isOpen fd := by
  simp [World.isOpen, h]

@[simp] theorem isOpen_log (w : World) (c : Syscall) (fd : Int) :
    (w.log c).isOpen fd = w.isOpen fd := isOpen_congr rfl fd

@[simp] theorem isOpen_fail (w : World) (c : Syscall) (e : Nat) (fd : Int) :
    (w.fail c e).isOpen fd = w.isOpen fd := isOpen_congr rfl fd

@[simp] theorem isOpen_alloc (w : World) (c : Syscall) (f : Nat) :
    (w.alloc c f).isOpen (lowestFree w.fds : Int) = true := by
  simp [World.isOpen]

@[simp] theorem isOpen_release (w : World) (fd : Int) : (w.release fd).isOpen fd = false := by
  simp [World.isOpen]

/-! ## The outcomes of each system call -/

theorem sys_open_ok {K : Kernel} {w : World} {path : String} {oflag : Nat}
    (h : K.reject w (.open_ path oflag) = none) :
    sys_open K w path oflag = ((lowestFree w.fds : Int), w.alloc (.open_ path oflag) oflag) := by
  simp [sys_open, h]

theorem sys_open_err {K : Kernel} {w : World} {path : String} {oflag e : Nat}
    (h : K.reject w (.open_ path oflag) = some e) :
    sys_open K w path oflag = (-1, w.fail (.open_ path oflag) e) := by
  simp [sys_open, h]

theorem sys_socket_ok {P : Platform} {K : Kernel} {w : World} {d t p : Int}
    (h : K.reject w (.socket d t p) = none) :
    sys_socket P K w d t p = ((lowestFree w.fds : Int), w.alloc (.socket d t p) P.O_RDWR) := by
  simp [sys_socket, h]

theorem sys_socket_err {P : Platform} {K : Kernel} {w : World} {d t p : Int} {e : Nat}
    (h : K.reject w (.socket d t p) = some e) :
    sys_socket P K w d t p = (-1, w.fail (.socket d t p) e) := by
  simp [sys_socket, h]

theorem sys_close_ok {P : Platform} {K : Kernel} {w : World} {fd : Int}
    (h : w.isOpen fd = true) (hr : K.reject w (.close fd) = none) :
    sys_close P K w fd = (0, w.release fd) := by
  simp [sys_close, h, hr]

theorem sys_close_err {P : Platform} {K : Kernel} {w : World} {fd : Int} {e : Nat}
    (h : w.isOpen fd = true) (hr : K.reject w (.close fd) = some e) :
    sys_close P K w fd = (-1, { w.release fd with errno := e }) := by
  simp [sys_close, h, hr]

theorem sys_close_badf {P : Platform} {K : Kernel} {w : World} {fd : Int}
    (h : w.isOpen fd = false) :
    sys_close P K w fd = (-1, w.fail (.close fd) P.EBADF) := by
  simp [sys_close, h]

@[simp] theorem sys_close_trace (P : Platform) (K : Kernel) (w : World) (fd : Int) :
    (sys_close P K w fd).2.trace = w.trace ++ [.close fd] := by
  unfold sys_close
  split
  · split <;> rfl
  · rfl

@[simp] theorem sys_close_fl (P : Platform) (K : Kernel) (w : World) (fd : Int) :
    (sys_close P K w fd).2.fl = w.fl := by
  unfold sys_close
  split
  · split <;> rfl
  · rfl

theorem sys_close_fds {P : Platform} {K : Kernel} {w : World} {fd : Int}
    (h : w.isOpen fd = true) :
    (sys_close P K w fd).2.fds = w.fds.filter (fun d => d != fd.toNat) := by
  unfold sys_close
  rw [if_pos h]
  split <;> rfl

@[simp] theorem sys_close_isOpen (P : Platform) (K : Kernel) (w : World) (fd : Int) :
    (sys_close P K w fd).2.isOpen fd = false := by
  cases h : w.isOpen fd with
  | true =>
    have := sys_close_fds (P := P) (K := K) h
    simp [World.isOpen, this]
  | false =>
    rw [sys_close_badf h]
    simpa using h

theorem sys_close_errno_of_ok {P : Platform} {K : Kernel} {w : World} {fd : Int}
    (h : (sys_close P K w fd).1 = 0) : (sys_close P K w fd).2.errno = w.errno := by
  have hne : ¬ ((-1 : Int) = 0) := by decide
  cases ho : w.isOpen fd with
  | false =>
    rw [sys_close_badf ho] at h
    exact absurd h hne
  | true =>
    cases hr : K.reject w (.close fd) with
    | some e =>
      rw [sys_close_err ho hr] at h
      exact absurd h hne
    | none =>
      rw [sys_close_ok ho hr]
      rfl

theorem sys_ioctl_TUNSETIFF_ok {P : Platform} {K : Kernel} {w : World} {fd : Int}
    {ifr : ifreq} (ho : w.isOpen fd = true)
    (h : K.reject w (.ioctl_TUNSETIFF fd ifr) = none) :
    sys_ioctl_TUNSETIFF P K w fd ifr =
      (0, { ifr with ifr_name := K.confirmed_name w fd ifr },
        w.log (.ioctl_TUNSETIFF fd ifr)) := by
  simp [sys_ioctl_TUNSETIFF, ho, h]

theorem sys_ioctl_TUNSETIFF_err {P : Platform} {K : Kernel} {w : World} {fd : Int}
    {ifr : ifreq} {e : Nat} (ho : w.isOpen fd = true)
    (h : K.reject w (.ioctl_TUNSETIFF fd ifr) = some e) :
    sys_ioctl_TUNSETIFF P K w fd ifr = (-1, ifr, w.fail (.ioctl_TUNSETIFF fd ifr) e) := by
  simp [sys_ioctl_TUNSETIFF, ho, h]

theorem sys_ioctl_TUNSETIFF_badf {P : Platform} {K : Kernel} {w : World} {fd : Int}
    {ifr : ifreq} (ho : w.isOpen fd = false) :
    sys_ioctl_TUNSETIFF P K w fd ifr =
      (-1, ifr, w.fail (.ioctl_TUNSETIFF fd ifr) P.EBADF) := by
  simp [sys_ioctl_TUNSETIFF, ho]

theorem sys_ioctl_TUNSETNOCSUM_trace (P : Platform) (K : Kernel) (w : World) (fd arg : Int) :
    (sys_ioctl_TUNSETNOCSUM P K w fd arg).2.trace = w.trace ++ [.ioctl_TUNSETNOCSUM fd arg] ∧
    (sys_ioctl_TUNSETNOCSUM P K w fd arg).2.fds = w.fds := by
  unfold sys_ioctl_TUNSETNOCSUM
  split
  · split <;> simp
  · simp

theorem sys_ioctl_SIOCETHTOOL_ok {P : Platform} {K : Kernel} {w : World} {fd : Int}
    {n : List Char} {ev : ethtool_value} (ho : w.isOpen fd = true)
    (h : K.reject w (.ioctl_SIOCETHTOOL fd n ev) = none) :
    sys_ioctl_SIOCETHTOOL P K w fd n ev =
      (0, { ev with data := K.feature_data w fd n ev }, w.log (.ioctl_SIOCETHTOOL fd n ev)) := by
  simp [sys_ioctl_SIOCETHTOOL, ho, h]

theorem sys_ioctl_SIOCETHTOOL_err {P : Platform} {K : Kernel} {w : World} {fd : Int}
    {n : List Char} {ev : ethtool_value} {e : Nat} (ho : w.isOpen fd = true)
    (h : K.reject w (.ioctl_SIOCETHTOOL fd n ev) = some e) :
    sys_ioctl_SIOCETHTOOL P K w fd n ev = (-1, ev, w.fail (.ioctl_SIOCETHTOOL fd n ev) e) := by
  simp [sys_ioctl_SIOCETHTOOL, ho, h]

theorem sys_fcntl_GETFL_ok {P : Platform} {K : Kernel} {w : World} {fd : Int}
    (ho : w.isOpen fd = true) (h : K.reject w (.fcntl_GETFL fd) = none) :
    sys_fcntl_GETFL P K w fd = ((w.fl fd.toNat : Int), w.log (.fcntl_GETFL fd)) := by
  simp [sys_fcntl_GETFL, ho, h]

theorem sys_fcntl_GETFL_err {P : Platform} {K : Kernel} {w : World} {fd : Int} {e : Nat}
    (ho : w.isOpen fd = true) (h : K.reject w (.fcntl_GETFL fd) = some e) :
    sys_fcntl_GETFL P K w fd = (-1, w.fail (.fcntl_GETFL fd) e) := by
  simp [sys_fcntl_GETFL, ho, h]

theorem sys_fcntl_GETFL_badf {P : Platform} {K : Kernel} {w : World} {fd : Int}
    (ho : w.isOpen fd = false) :
    sys_fcntl_GETFL P K w fd = (-1, w.fail (.fcntl_GETFL fd) P.EBADF) := by
  simp [sys_fcntl_GETFL, ho]

theorem sys_fcntl_SETFL_ok {P : Platform} {K : Kernel} {w : World} {fd arg : Int}
    (ho : w.isOpen fd = true) (h : K.reject w (.fcntl_SETFL fd arg) = none) :
    sys_fcntl_SETFL P K w fd arg =
      (0, { w.log (.fcntl_SETFL fd arg) with
            fl := Function.update w.fl fd.toNat arg.toNat }) := by
  simp [sys_fcntl_SETFL, ho, h]

/-! ## get_ethtool_feature_val and check_csum_offload, case by case -/

theorem gefv_cases (P : Platform) (K : Kernel) (w : World) (d : List Char) (cmd : Int) :
    (∃ e, K.reject w (.socket P.AF_INET P.SOCK_DGRAM 0) = some e ∧
      get_ethtool_feature_val P K w (some d) cmd =
        (0, w.fail (.socket P.AF_INET P.SOCK_DGRAM 0) e)) ∨
    (K.reject w (.socket P.AF_INET P.SOCK_DGRAM 0) = none ∧
      ∃ e, K.reject (w.alloc (.socket P.AF_INET P.SOCK_DGRAM 0) P.O_RDWR)
          (.ioctl_SIOCETHTOOL (lowestFree w.fds) (ethtool_ifr_name P d) (ethtool_eval cmd))
          = some e ∧
        get_ethtool_feature_val P K w (some d) cmd =
          (0, (sys_close P K ((w.alloc (.socket P.AF_INET P.SOCK_DGRAM 0) P.O_RDWR).fail
            (.ioctl_SIOCETHTOOL (lowestFree w.fds) (ethtool_ifr_name P d) (ethtool_eval cmd))
            e) (lowestFree w.fds)).2)) ∨
    (K.reject w (.socket P.AF_INET P.SOCK_DGRAM 0) = none ∧
      K.reject (w.alloc (.socket P.AF_INET P.SOCK_DGRAM 0) P.O_RDWR)
          (.ioctl_SIOCETHTOOL (lowestFree w.fds) (ethtool_ifr_name P d) (ethtool_eval cmd))
          = none ∧
        get_ethtool_feature_val P K w (some d) cmd =
          (if K.feature_data (w.alloc (.socket P.AF_INET P.SOCK_DGRAM 0) P.O_RDWR)
              (lowestFree w.fds) (ethtool_ifr_name P d) (ethtool_eval cmd) = 0 then 0 else 1,
            (sys_close P K ((w.alloc (.socket P.AF_INET P.SOCK_DGRAM 0) P.O_RDWR).log
            (.ioctl_SIOCETHTOOL (lowestFree w.fds) (ethtool_ifr_name P d)
              (ethtool_eval cmd))) (lowestFree w.fds)).2)) := by
  cases hs : K.reject w (.socket P.AF_INET P.SOCK_DGRAM 0) with
  | some e =>
    left
    refine ⟨e, rfl, ?_⟩
    simp only [get_ethtool_feature_val, sys_socket_err hs]
    rw [if_pos (by decide)]
  | none =>
    right
    have hfd : ¬ ((lowestFree w.fds : Int) < 0) := by simp
    cases hq : K.reject (w.alloc (.socket P.AF_INET P.SOCK_DGRAM 0) P.O_RDWR)
          (.ioctl_SIOCETHTOOL (lowestFree w.fds) (ethtool_ifr_name P d) (ethtool_eval cmd)) with
    | some e =>
      left
      refine ⟨rfl, e, rfl, ?_⟩
      simp only [get_ethtool_feature_val, sys_socket_ok hs]
      rw [if_neg hfd, sys_ioctl_SIOCETHTOOL_err (isOpen_alloc _ _ _) hq]
      simp only [if_true]
    | none =>
      right
      refine ⟨rfl, rfl, ?_⟩
      simp only [get_ethtool_feature_val, sys_socket_ok hs]
      rw [if_neg hfd, sys_ioctl_SIOCETHTOOL_ok (isOpen_alloc _ _ _) hq]
      rw [if_neg (show ¬ ((0 : Int) = -1) by decide)]
      simp only []
      split <;> rfl

theorem gefv_fds (P : Platform) (K : Kernel) (w : World) (dev : Option (List Char))
    (cmd : Int) : (get_ethtool_feature_val P K w dev cmd).2.fds = w.fds := by
  cases dev with
  | none => rfl
  | some d =>
    rcases gefv_cases P K w d cmd with ⟨e, _, h⟩ | ⟨_, e, _, h⟩ | ⟨_, _, h⟩ <;> rw [h]
    · rfl
    · simp only []
      rw [sys_close_fds (by simp)]
      simp only [fail_fds, alloc_fds, Int.toNat_ofNat]
      exact filter_ne_cons_lowestFree _
    · simp only []
      rw [sys_close_fds (by simp)]
      simp only [log_fds, alloc_fds, Int.toNat_ofNat]
      exact filter_ne_cons_lowestFree _

theorem gefv_zero_or_one (P : Platform) (K : Kernel) (w : World) (dev : Option (List Char))
    (cmd : Int) :
    (get_ethtool_feature_val P K w dev cmd).1 = 0 ∨
      (get_ethtool_feature_val P K w dev cmd).1 = 1 := by
  cases dev with
  | none => left; rfl
  | some d =>
    rcases gefv_cases P K w d cmd with ⟨e, _, h⟩ | ⟨_, e, _, h⟩ | ⟨_, _, h⟩ <;> rw [h]
    · left; rfl
    · left; rfl
    · simp only []
      split
      · left; rfl
      · right; rfl

theorem check_csum_offload_cases (P : Platform) (K : Kernel) (w : World) (d : List Char) :
    ((get_ethtool_feature_val P K w (some d) P.ETHTOOL_GGRO).1 = 0 ∧
      check_csum_offload P K w (some d) =
        (0, (get_ethtool_feature_val P K w (some d) P.ETHTOOL_GGRO).2)) ∨
    ((get_ethtool_feature_val P K w (some d) P.ETHTOOL_GGRO).1 = 1 ∧
      check_csum_offload P K w (some d) =
        get_ethtool_feature_val P K
          (get_ethtool_feature_val P K w (some d) P.ETHTOOL_GGRO).2 (some d)
          P.ETHTOOL_GRXCSUM) := by
  rcases gefv_zero_or_one P K w (some d) P.ETHTOOL_GGRO with h | h
  · left
    refine ⟨h, ?_⟩
    simp only [check_csum_offload]
    rw [if_neg (by simp [h])]
  · right
    refine ⟨h, ?_⟩
    simp only [check_csum_offload]
    rw [if_pos (by simp [h])]
    rcases gefv_zero_or_one P K (get_ethtool_feature_val P K w (some d) P.ETHTOOL_GGRO).2
      (some d) P.ETHTOOL_GRXCSUM with h2 | h2
    · rw [if_neg (by simp [h2])]
      exact Prod.ext h2.symm rfl
    · rw [if_pos (by simp [h2])]
      exact Prod.ext h2.symm rfl

/-- C1: `check_csum_offload` returns 1 exactly when the name is present and
both `get_ethtool_feature_val(dev, ETHTOOL_GGRO)` and, after it,
`get_ethtool_feature_val(dev, ETHTOOL_GRXCSUM)` report the feature; in every
other case (name absent, GRO absent, RXCSUM absent) it returns 0. -/
theorem check_csum_offload_iff (P : Platform) (K : Kernel) (w : World)
    (dev : Option (List Char)) :
    ((check_csum_offload P K w dev).1 = 1 ↔
      dev ≠ none ∧
      (get_ethtool_feature_val P K w dev P.ETHTOOL_GGRO).1 = 1 ∧
      (get_ethtool_feature_val P K
        (get_ethtool_feature_val P K w dev P.ETHTOOL_GGRO).2 dev P.ETHTOOL_GRXCSUM).1 = 1) ∧
    ((check_csum_offload P K w dev).1 = 0 ↔
      dev = none ∨
      (get_ethtool_feature_val P K w dev P.ETHTOOL_GGRO).1 = 0 ∨
      (get_ethtool_feature_val P K
        (get_ethtool_feature_val P K w dev P.ETHTOOL_GGRO).2 dev P.ETHTOOL_GRXCSUM).1 = 0) := by
  cases dev with
  | none => simp [check_csum_offload]
  | some d =>
    rcases check_csum_offload_cases P K w d with ⟨h1, h⟩ | ⟨h1, h⟩
    · rw [h]; simp [h1]
    · rw [h]
      rcases gefv_zero_or_one P K (get_ethtool_feature_val P K w (some d) P.ETHTOOL_GGRO).2
        (some d) P.ETHTOOL_GRXCSUM with h2 | h2 <;> simp [h1, h2]

/-! ## C strings -/

theorem cstr_no_nul (b : List Char) : ∀ c ∈ cstr b, c ≠ NUL := by
  intro c hc
  have := List.mem_takeWhile_imp hc
  simpa using this

theorem cstr_append_nul (l r : List Char) (h : ∀ c ∈ l, c ≠ NUL) :
    cstr (l ++ NUL :: r) = l := by
  induction l with
  | nil => simp [cstr]
  | cons a t ih =>
    have ha : a ≠ NUL := h a (List.mem_cons_self _ _)
    have ht : ∀ c ∈ t, c ≠ NUL := fun c hc => h c (List.mem_cons_of_mem _ hc)
    have := ih ht
    simp only [cstr] at this ⊢
    simp [List.takeWhile_cons, ha, this]

theorem take_no_nul (b : List Char) (n : Nat) : ∀ c ∈ (cstr b).take n, c ≠ NUL :=
  fun c hc => cstr_no_nul b c (List.mem_of_mem_take hc)

theorem ethtool_ifr_name_cstr (P : Platform) (d : List Char) (h : 0 < P.IFNAMSIZ) :
    cstr (ethtool_ifr_name P d) = (cstr d).take (P.IFNAMSIZ - 1) := by
  simp only [ethtool_ifr_name, strlcpy]
  rw [if_neg (by omega)]
  simp only [List.append_assoc, List.singleton_append]
  exact cstr_append_nul _ _ (take_no_nul d _)

theorem ethtool_ifr_name_length (P : Platform) (d : List Char) :
    (ethtool_ifr_name P d).length = P.IFNAMSIZ := by
  simp only [ethtool_ifr_name, strlcpy, zeroed]
  split
  · simp_all
  · simp only [List.length_append, List.length_take, List.length_cons, List.length_nil,
      List.length_drop, List.length_replicate]
    omega

/-- C8: for a present name `d`, `get_ethtool_feature_val` returns 0 or 1 and
nothing else; it returns 1 exactly when the `socket` call gave a descriptor,
the `SIOCETHTOOL` query on it did not return -1 and the `data` it wrote back is
not zero, so that a failed `socket`, a failed query and a zero `data` all give
0.  The query carries the name (its first `IFNAMSIZ - 1` characters, in an
array of `IFNAMSIZ`) and the feature id (as the unsigned 32-bit `cmd`). -/
theorem get_ethtool_feature_val_spec (P : Platform) (K : Kernel) (w : World)
    (d : List Char) (cmd : Int) :
    ((get_ethtool_feature_val P K w (some d) cmd).1 = 0 ∨
      (get_ethtool_feature_val P K w (some d) cmd).1 = 1) ∧
    ((get_ethtool_feature_val P K w (some d) cmd).1 = 1 ↔
      0 ≤ (sys_socket P K w P.AF_INET P.SOCK_DGRAM 0).1 ∧
      (sys_ioctl_SIOCETHTOOL P K (sys_socket P K w P.AF_INET P.SOCK_DGRAM 0).2
        (sys_socket P K w P.AF_INET P.SOCK_DGRAM 0).1
        (ethtool_ifr_name P d) (ethtool_eval cmd)).1 ≠ -1 ∧
      (sys_ioctl_SIOCETHTOOL P K (sys_socket P K w P.AF_INET P.SOCK_DGRAM 0).2
        (sys_socket P K w P.AF_INET P.SOCK_DGRAM 0).1
        (ethtool_ifr_name P d) (ethtool_eval cmd)).2.1.data ≠ 0) ∧
    (0 ≤ (sys_socket P K w P.AF_INET P.SOCK_DGRAM 0).1 →
      (get_ethtool_feature_val P K w (some d) cmd).2.trace =
        w.trace ++ [.socket P.AF_INET P.SOCK_DGRAM 0,
          .ioctl_SIOCETHTOOL (sys_socket P K w P.AF_INET P.SOCK_DGRAM 0).1
            (ethtool_ifr_name P d) (ethtool_eval cmd),
          .close (sys_socket P K w P.AF_INET P.SOCK_DGRAM 0).1]) ∧
    (ethtool_ifr_name P d).length = P.IFNAMSIZ ∧
    (0 < P.IFNAMSIZ → cstr (ethtool_ifr_name P d) = (cstr d).take (P.IFNAMSIZ - 1)) ∧
    ((ethtool_eval cmd).cmd : Int) = cmd % 2 ^ 32 := by
  refine ⟨gefv_zero_or_one P K w (some d) cmd, ?_, ?_, ethtool_ifr_name_length P d,
    ethtool_ifr_name_cstr P d, ?_⟩
  · rcases gefv_cases P K w d cmd with ⟨e, hs, h⟩ | ⟨hs, e, hq, h⟩ | ⟨hs, hq, h⟩
    · rw [h, sys_socket_err hs]
      simp
    · rw [h, sys_socket_ok hs]
      simp only []
      rw [sys_ioctl_SIOCETHTOOL_err (isOpen_alloc _ _ _) hq]
      simp
    · rw [h, sys_socket_ok hs]
      simp only []
      rw [sys_ioctl_SIOCETHTOOL_ok (isOpen_alloc _ _ _) hq]
      simp
  · intro h0
    rcases gefv_cases P K w d cmd with ⟨e, hs, h⟩ | ⟨hs, e, hq, h⟩ | ⟨hs, hq, h⟩
    · rw [sys_socket_err hs] at h0
      exact absurd h0 (show ¬ ((0 : Int) ≤ -1) by decide)
    · rw [h, sys_socket_ok hs]
      simp
    · rw [h, sys_socket_ok hs]
      simp
  · simp only [ethtool_eval]
    exact Int.toNat_of_nonneg (Int.emod_nonneg _ (by norm_num))

theorem ethtool_ifr_name_empty (P : Platform) (d : List Char) (h : cstr d = []) :
    ethtool_ifr_name P d = zeroed P.IFNAMSIZ := by
  simp only [ethtool_ifr_name, strlcpy, h, zeroed]
  split
  · rfl
  · rename_i hn
    obtain ⟨n, hn'⟩ := Nat.exists_eq_succ_of_ne_zero hn
    rw [hn']
    simp [List.replicate_succ]

theorem gefv_trace_of_socket (P : Platform) (K : Kernel) (w : World) (d : List Char)
    (cmd : Int) (hs : K.reject w (.socket P.AF_INET P.SOCK_DGRAM 0) = none) :
    (get_ethtool_feature_val P K w (some d) cmd).2.trace =
      w.trace ++ [.socket P.AF_INET P.SOCK_DGRAM 0,
        .ioctl_SIOCETHTOOL (lowestFree w.fds) (ethtool_ifr_name P d) (ethtool_eval cmd),
        .close (lowestFree w.fds)] := by
  rcases gefv_cases P K w d cmd with ⟨e, hs', h⟩ | ⟨_, e, hq, h⟩ | ⟨_, hq, h⟩
  · rw [hs] at hs'; cases hs'
  · rw [h]; simp
  · rw [h]; simp

/-- C10: `get_ethtool_feature_val` and `check_csum_offload` leave the set of
open descriptors as they found it, for every name, feature and behaviour of
the kernel; when the `socket` call gave a descriptor, the last thing
`get_ethtool_feature_val` does is to close it; `check_csum_offload` ends in
the state it started in or in the state its first or its second call of
`get_ethtool_feature_val` left. -/
theorem get_ethtool_feature_val_closes (P : Platform) (K : Kernel) (w : World)
    (dev : Option (List Char)) (cmd : Int) :
    (get_ethtool_feature_val P K w dev cmd).2.fds = w.fds ∧
    (check_csum_offload P K w dev).2.fds = w.fds ∧
    (dev ≠ none → 0 ≤ (sys_socket P K w P.AF_INET P.SOCK_DGRAM 0).1 →
      (get_ethtool_feature_val P K w dev cmd).2.trace.getLast? =
        some (.close (sys_socket P K w P.AF_INET P.SOCK_DGRAM 0).1) ∧
      (get_ethtool_feature_val P K w dev cmd).2.isOpen
        (sys_socket P K w P.AF_INET P.SOCK_DGRAM 0).1 = false) ∧
    ((check_csum_offload P K w dev).2 = w ∨
      (check_csum_offload P K w dev).2 =
        (get_ethtool_feature_val P K w dev P.ETHTOOL_GGRO).2 ∨
      (check_csum_offload P K w dev).2 =
        (get_ethtool_feature_val P K
          (get_ethtool_feature_val P K w dev P.ETHTOOL_GGRO).2 dev P.ETHTOOL_GRXCSUM).2) := by
  refine ⟨gefv_fds P K w dev cmd, ?_, ?_, ?_⟩
  · cases dev with
    | none => rfl
    | some d =>
      rcases check_csum_offload_cases P K w d with ⟨_, h⟩ | ⟨_, h⟩
      · rw [h]; exact gefv_fds P K w _ _
      · rw [h, gefv_fds, gefv_fds]
  · intro hd h0
    cases dev with
    | none => exact absurd rfl hd
    | some d =>
      cases hs : K.reject w (.socket P.AF_INET P.SOCK_DGRAM 0) with
      | some e =>
        rw [sys_socket_err hs] at h0
        exact absurd h0 (show ¬ ((0 : Int) ≤ -1) by decide)
      | none =>
        rw [gefv_trace_of_socket P K w d cmd hs, sys_socket_ok hs]
        refine ⟨by simp, ?_⟩
        have hf := gefv_fds P K w (some d) cmd
        have hn := lowestFree_not_mem w.fds
        simp [World.isOpen, hf, hn]
  · cases dev with
    | none => left; rfl
    | some d =>
      rcases check_csum_offload_cases P K w d with ⟨_, h⟩ | ⟨_, h⟩
      · right; left; rw [h]
      · right; right; rw [h]

theorem cstr_zeroed (n : Nat) : cstr (zeroed n) = [] := by
  cases n with
  | zero => rfl
  | succ k => simp [cstr, zeroed, List.replicate_succ]

/-- C7, as the code has it: only the absent name (the null pointer) is
answered at once.  For it `get_ethtool_feature_val` and `check_csum_offload`
return 0 and issue no system call at all.  A present but empty name is queried
like any other: when `socket` goes through, the calls issued are `socket`, the
`SIOCETHTOOL` query with an all-zero name array, and `close`.  The result for
the empty name is 0 all the same on a kernel that rejects every `SIOCETHTOOL`
query whose name is empty (Linux: `ENODEV`): `get_ethtool_feature_val` returns
0, and `check_csum_offload` returns 0 after its first query, without making
the second. -/
theorem get_ethtool_feature_val_absent_name (P : Platform) (K : Kernel) (w : World)
    (cmd : Int) :
    get_ethtool_feature_val P K w none cmd = (0, w) ∧
    check_csum_offload P K w none = (0, w) ∧
    (∀ d, cstr d = [] → K.reject w (.socket P.AF_INET P.SOCK_DGRAM 0) = none →
      (get_ethtool_feature_val P K w (some d) cmd).2.trace =
        w.trace ++ [.socket P.AF_INET P.SOCK_DGRAM 0,
          .ioctl_SIOCETHTOOL (lowestFree w.fds) (zeroed P.IFNAMSIZ) (ethtool_eval cmd),
          .close (lowestFree w.fds)]) ∧
    (∀ d, cstr d = [] →
      (∀ v fd n ev, cstr n = [] → K.reject v (.ioctl_SIOCETHTOOL fd n ev) ≠ none) →
      (get_ethtool_feature_val P K w (some d) cmd).1 = 0 ∧
      check_csum_offload P K w (some d) =
        (0, (get_ethtool_feature_val P K w (some d) P.ETHTOOL_GGRO).2)) := by
  have zero_of : ∀ (d : List Char) (c : Int), cstr d = [] →
      (∀ v fd n ev, cstr n = [] → K.reject v (.ioctl_SIOCETHTOOL fd n ev) ≠ none) →
      (get_ethtool_feature_val P K w (some d) c).1 = 0 := by
    intro d c hd hk
    rcases gefv_cases P K w d c with ⟨e, _, h⟩ | ⟨_, e, _, h⟩ | ⟨_, hq, h⟩
    · rw [h]
    · rw [h]
    · have hn : cstr (ethtool_ifr_name P d) = [] := by
        rw [ethtool_ifr_name_empty P d hd]; exact cstr_zeroed _
      exact absurd hq (hk _ _ _ _ hn)
  refine ⟨rfl, rfl, fun d hd hs => ?_, fun d hd hk => ⟨zero_of d cmd hd hk, ?_⟩⟩
  · rw [gefv_trace_of_socket P K w d cmd hs, ethtool_ifr_name_empty P d hd]
  · rcases check_csum_offload_cases P K w d with ⟨_, h⟩ | ⟨h1, _⟩
    · exact h
    · rw [zero_of d P.ETHTOOL_GGRO hd hk] at h1
      exact absurd h1 (by decide)

/-- C7, as the claim has it, fails: for the empty name on `K0` the function
creates an endpoint, issues the query and closes the endpoint, before it
returns 0. -/
theorem get_ethtool_feature_val_empty_name_queries :
    (get_ethtool_feature_val linux K0 w0 (some [NUL]) linux.ETHTOOL_GGRO).2.trace =
      [.socket 2 2 0, .ioctl_SIOCETHTOOL 3 (zeroed 16) { cmd := 43, data := 0 }, .close 3] ∧
    (get_ethtool_feature_val linux K0 w0 (some [NUL]) linux.ETHTOOL_GGRO).2.trace ≠
      w0.trace ∧
    (get_ethtool_feature_val linux K0 w0 (some [NUL]) linux.ETHTOOL_GGRO).1 = 0 := by
  decide

/-- C7 on `K0`, which answers `ENODEV` for the empty name: the calls issued
for the empty name, and the result 0 of both functions. -/
theorem get_ethtool_feature_val_absent_name_witness :
    cstr [NUL] = [] ∧
    K0.reject w0 (.socket linux.AF_INET linux.SOCK_DGRAM 0) = none ∧
    (get_ethtool_feature_val linux K0 w0 (some [NUL]) 43).2.trace =
        w0.trace ++ [.socket linux.AF_INET linux.SOCK_DGRAM 0,
          .ioctl_SIOCETHTOOL (lowestFree w0.fds) (zeroed linux.IFNAMSIZ) (ethtool_eval 43),
          .close (lowestFree w0.fds)] ∧
    (∀ v fd n ev, cstr n = [] → K0.reject v (.ioctl_SIOCETHTOOL fd n ev) ≠ none) ∧
    (get_ethtool_feature_val linux K0 w0 (some [NUL]) 43).1 = 0 ∧
    (check_csum_offload linux K0 w0 (some [NUL])).1 = 0 :=
  have hk : ∀ (v : World) (fd : Int) (n : List Char) (ev : ethtool_value), cstr n = [] →
      K0.reject v (.ioctl_SIOCETHTOOL fd n ev) ≠ none :=
    fun v fd n ev hn => by simp [K0, hn]
  have h := get_ethtool_feature_val_absent_name linux K0 w0 43
  ⟨by decide, by decide, h.2.2.1 [NUL] (by decide) (by decide), hk,
    (h.2.2.2 [NUL] (by decide) hk).1,
    congrArg Prod.fst (h.2.2.2 [NUL] (by decide) hk).2⟩

/-! ## The request of tun_alloc -/

theorem cstr_eq_nil_of_head (dev : List Char) (h : dev.headD NUL = NUL) : cstr dev = [] := by
  cases dev with
  | nil => rfl
  | cons a t =>
    simp only [List.headD_cons] at h
    simp [cstr, List.takeWhile_cons, h]

theorem set_last_eq (l : List Char) (n : Nat) (x : Char) (hn : 0 < n) (hl : l.length = n) :
    l.set (n - 1) x = l.take (n - 1) ++ [x] := by
  rw [List.set_eq_take_append_cons_drop, if_pos (by omega)]
  have : List.drop (n - 1 + 1) l = [] := List.drop_eq_nil_of_le (by omega)
  rw [this]

theorem tun_alloc_ifr_name (P : Platform) (dev : List Char) (h : 0 < P.IFNAMSIZ) :
    (tun_alloc_ifr P dev).ifr_name =
      (cstr dev).take (P.IFNAMSIZ - 1) ++
        List.replicate (P.IFNAMSIZ - min (P.IFNAMSIZ - 1) (cstr dev).length) NUL := by
  by_cases hd : dev.headD NUL = NUL
  · simp only [tun_alloc_ifr]
    rw [if_neg (not_not.2 hd), cstr_eq_nil_of_head dev hd]
    simp [zeroed]
  · simp only [tun_alloc_ifr, if_pos hd]
    have hlen : (strncpy (zeroed P.IFNAMSIZ) dev P.IFNAMSIZ).length = P.IFNAMSIZ := by
      simp only [strncpy, zeroed, List.length_append, List.length_take, List.length_drop,
        List.length_replicate]
      omega
    rw [set_last_eq _ _ _ h hlen]
    simp only [strncpy, zeroed]
    rw [List.drop_eq_nil_of_le (by simp), List.append_nil]
    rcases Nat.lt_or_ge (cstr dev).length P.IFNAMSIZ with hl | hl
    · rw [List.take_of_length_le (Nat.le_of_lt hl),
        List.take_of_length_le (show (cstr dev).length ≤ P.IFNAMSIZ - 1 by omega)]
      rw [List.take_append_eq_append_take,
        List.take_of_length_le (show (cstr dev).length ≤ P.IFNAMSIZ - 1 by omega)]
      rw [List.take_replicate, List.append_assoc]
      congr 1
      have e1 : min (P.IFNAMSIZ - 1 - (cstr dev).length) (P.IFNAMSIZ - (cstr dev).length)
          = P.IFNAMSIZ - 1 - (cstr dev).length := by omega
      have e2 : P.IFNAMSIZ - min (P.IFNAMSIZ - 1) (cstr dev).length
          = (P.IFNAMSIZ - 1 - (cstr dev).length) + 1 := by omega
      rw [e1, e2, List.replicate_succ']
    · have e0 : P.IFNAMSIZ - (cstr dev).length = 0 := by omega
      have e2 : P.IFNAMSIZ - min (P.IFNAMSIZ - 1) (cstr dev).length = 1 := by omega
      rw [e0, e2]
      simp only [List.replicate_zero, List.append_nil, List.take_take, List.replicate_one]
      rw [Nat.min_eq_left (by omega)]

theorem cstr_append_replicate (l : List Char) (k : Nat) (h : ∀ c ∈ l, c ≠ NUL) :
    cstr (l ++ List.replicate k NUL) = l := by
  cases k with
  | zero =>
    simp only [List.replicate_zero, List.append_nil, cstr]
    apply List.takeWhile_eq_self_iff.2
    intro c hc
    simpa using h c hc
  | succ k =>
    rw [List.replicate_succ]
    exact cstr_append_nul l _ h

/-! ## tun_alloc, case by case -/

theorem tun_alloc_cases (P : Platform) (K : Kernel) (rx : Int) (w : World)
    (dev : List Char) (fd : Int) :
    (w.isOpen fd = false ∧
      sys_ioctl_TUNSETIFF P K w fd (tun_alloc_ifr P dev) =
        (-1, tun_alloc_ifr P dev,
          w.fail (.ioctl_TUNSETIFF fd (tun_alloc_ifr P dev)) P.EBADF) ∧
      tun_alloc P K rx w dev fd =
        (-1, dev, (w.fail (.ioctl_TUNSETIFF fd (tun_alloc_ifr P dev)) P.EBADF).fail
          (.close fd) P.EBADF)) ∨
    (w.isOpen fd = true ∧
      ∃ e, K.reject w (.ioctl_TUNSETIFF fd (tun_alloc_ifr P dev)) = some e ∧
        sys_ioctl_TUNSETIFF P K w fd (tun_alloc_ifr P dev) =
          (-1, tun_alloc_ifr P dev, w.fail (.ioctl_TUNSETIFF fd (tun_alloc_ifr P dev)) e) ∧
        tun_alloc P K rx w dev fd =
          (-1, dev,
            (sys_close P K (w.fail (.ioctl_TUNSETIFF fd (tun_alloc_ifr P dev)) e) fd).2)) ∨
    (w.isOpen fd = true ∧
      K.reject w (.ioctl_TUNSETIFF fd (tun_alloc_ifr P dev)) = none ∧
      sys_ioctl_TUNSETIFF P K w fd (tun_alloc_ifr P dev) =
        (0, { tun_alloc_ifr P dev with
              ifr_name := K.confirmed_name w fd (tun_alloc_ifr P dev) },
          w.log (.ioctl_TUNSETIFF fd (tun_alloc_ifr P dev))) ∧
      tun_alloc P K rx w dev fd =
        (0, strcpy dev (K.confirmed_name w fd (tun_alloc_ifr P dev)),
          if rx ≠ 0 then
            (sys_ioctl_TUNSETNOCSUM P K (w.log (.ioctl_TUNSETIFF fd (tun_alloc_ifr P dev)))
              fd 1).2
          else w.log (.ioctl_TUNSETIFF fd (tun_alloc_ifr P dev)))) := by
  have hneg : ((-1 : Int) < 0) := by decide
  have hzero : ¬ ((0 : Int) < 0) := by decide
  cases ho : w.isOpen fd with
  | false =>
    left
    refine ⟨rfl, sys_ioctl_TUNSETIFF_badf ho, ?_⟩
    simp only [tun_alloc, sys_ioctl_TUNSETIFF_badf ho]
    rw [if_pos hneg, sys_close_badf (by simpa using ho)]
  | true =>
    right
    cases hr : K.reject w (.ioctl_TUNSETIFF fd (tun_alloc_ifr P dev)) with
    | some e =>
      left
      refine ⟨rfl, e, rfl, sys_ioctl_TUNSETIFF_err ho hr, ?_⟩
      simp only [tun_alloc, sys_ioctl_TUNSETIFF_err ho hr]
      rw [if_pos hneg]
    | none =>
      right
      refine ⟨rfl, rfl, sys_ioctl_TUNSETIFF_ok ho hr, ?_⟩
      simp only [tun_alloc, sys_ioctl_TUNSETIFF_ok ho hr]
      rw [if_neg hzero]
      split <;> rfl

theorem cstr_strcpy (dst src : List Char) : cstr (strcpy dst src) = cstr src := by
  simp only [strcpy, List.append_assoc, List.singleton_append]
  exact cstr_append_nul _ _ (cstr_no_nul src)

theorem closed_fd_fails (P : Platform) (K : Kernel) (w : World) (fd : Int)
    (h : w.isOpen fd = false) :
    (sys_fcntl_GETFL P K w fd).1 = -1 ∧
    (∀ arg, (sys_fcntl_SETFL P K w fd arg).1 = -1) ∧
    (∀ ifr, (sys_ioctl_TUNSETIFF P K w fd ifr).1 = -1) ∧
    (∀ arg, (sys_ioctl_TUNSETNOCSUM P K w fd arg).1 = -1) ∧
    (sys_close P K w fd).1 = -1 ∧
    (set_nonblocking P K w fd).1 = -1 := by
  refine ⟨?_, ?_, ?_, ?_, ?_, ?_⟩
  · simp [sys_fcntl_GETFL, h]
  · intro arg; simp [sys_fcntl_SETFL, h]
  · intro ifr; simp [sys_ioctl_TUNSETIFF, h]
  · intro arg; simp [sys_ioctl_TUNSETNOCSUM, h]
  · simp [sys_close, h]
  · simp [set_nonblocking, sys_fcntl_GETFL, h]

/-- C3, as the code has it: when the `TUNSETIFF` request of `tun_alloc` is
rejected (its `ioctl` returns a negative value), `tun_alloc` returns that very
value, which is negative and so never 0; `fd` is closed, and whatever the
kernel would answer, a later `fcntl`, `ioctl`, `close` or `set_nonblocking` on
it fails; the calls issued are the request and the `close`.  The error number
of the rejected request is still in `errno` when the `close` returns 0 and
when `fd` was not open in the first place; when the `close` of an open `fd`
fails, `errno` holds the error number of the `close`. -/
theorem tun_alloc_rejected (P : Platform) (K : Kernel) (rx : Int) (w : World)
    (dev : List Char) (fd : Int)
    (h : (sys_ioctl_TUNSETIFF P K w fd (tun_alloc_ifr P dev)).1 < 0) :
    (tun_alloc P K rx w dev fd).1 = (sys_ioctl_TUNSETIFF P K w fd (tun_alloc_ifr P dev)).1 ∧
    (tun_alloc P K rx w dev fd).1 < 0 ∧
    (tun_alloc P K rx w dev fd).1 ≠ 0 ∧
    ((sys_close P K (sys_ioctl_TUNSETIFF P K w fd (tun_alloc_ifr P dev)).2.2 fd).1 = 0 →
      (tun_alloc P K rx w dev fd).2.2.errno =
        (sys_ioctl_TUNSETIFF P K w fd (tun_alloc_ifr P dev)).2.2.errno) ∧
    (w.isOpen fd = false →
      (tun_alloc P K rx w dev fd).2.2.errno =
        (sys_ioctl_TUNSETIFF P K w fd (tun_alloc_ifr P dev)).2.2.errno) ∧
    (∀ e, w.isOpen fd = true →
      K.reject (sys_ioctl_TUNSETIFF P K w fd (tun_alloc_ifr P dev)).2.2 (.close fd) = some e →
      (tun_alloc P K rx w dev fd).2.2.errno = e) ∧
    (tun_alloc P K rx w dev fd).2.2.isOpen fd = false ∧
    (∀ K2 : Kernel,
      (sys_fcntl_GETFL P K2 (tun_alloc P K rx w dev fd).2.2 fd).1 = -1 ∧
      (∀ arg, (sys_fcntl_SETFL P K2 (tun_alloc P K rx w dev fd).2.2 fd arg).1 = -1) ∧
      (∀ ifr, (sys_ioctl_TUNSETIFF P K2 (tun_alloc P K rx w dev fd).2.2 fd ifr).1 = -1) ∧
      (∀ arg, (sys_ioctl_TUNSETNOCSUM P K2 (tun_alloc P K rx w dev fd).2.2 fd arg).1 = -1) ∧
      (sys_close P K2 (tun_alloc P K rx w dev fd).2.2 fd).1 = -1 ∧
      (set_nonblocking P K2 (tun_alloc P K rx w dev fd).2.2 fd).1 = -1) ∧
    (tun_alloc P K rx w dev fd).2.2.trace =
      w.trace ++ [.ioctl_TUNSETIFF fd (tun_alloc_ifr P dev), .close fd] := by
  have hneg : ((-1 : Int) < 0) := by decide
  have hzero : ¬ ((0 : Int) < 0) := by decide
  have key : (tun_alloc P K rx w dev fd).1 =
        (sys_ioctl_TUNSETIFF P K w fd (tun_alloc_ifr P dev)).1 ∧
      (tun_alloc P K rx w dev fd).1 < 0 ∧
      ((sys_close P K (sys_ioctl_TUNSETIFF P K w fd (tun_alloc_ifr P dev)).2.2 fd).1 = 0 →
        (tun_alloc P K rx w dev fd).2.2.errno =
          (sys_ioctl_TUNSETIFF P K w fd (tun_alloc_ifr P dev)).2.2.errno) ∧
      (w.isOpen fd = false →
        (tun_alloc P K rx w dev fd).2.2.errno =
          (sys_ioctl_TUNSETIFF P K w fd (tun_alloc_ifr P dev)).2.2.errno) ∧
      (∀ e, w.isOpen fd = true →
        K.reject (sys_ioctl_TUNSETIFF P K w fd (tun_alloc_ifr P dev)).2.2 (.close fd)
          = some e →
        (tun_alloc P K rx w dev fd).2.2.errno = e) ∧
      (tun_alloc P K rx w dev fd).2.2.isOpen fd = false ∧
      (tun_alloc P K rx w dev fd).2.2.trace =
        w.trace ++ [.ioctl_TUNSETIFF fd (tun_alloc_ifr P dev), .close fd] := by
    rcases tun_alloc_cases P K rx w dev fd with ⟨ho, hq, ht⟩ | ⟨ho, e, _, hq, ht⟩ |
      ⟨ho, _, hq, ht⟩
    · rw [ht, hq]
      refine ⟨rfl, hneg, fun _ => rfl, fun _ => rfl, ?_, ?_, by simp⟩
      · intro e1 h1
        rw [ho] at h1
        cases h1
      · simpa using ho
    · rw [ht, hq]
      refine ⟨rfl, hneg, ?_, ?_, ?_, by simp, by simp⟩
      · intro hc
        exact sys_close_errno_of_ok hc
      · intro h1
        rw [ho] at h1
        cases h1
      · intro e1 _ h1
        simp only [] at h1 ⊢
        rw [sys_close_err (by simpa using ho) h1]
    · rw [hq] at h
      exact absurd h hzero
  obtain ⟨k1, k2, k3, k4, k5, k6, k7⟩ := key
  exact ⟨k1, k2, ne_of_lt k2, k3, k4, k5, k6, fun K2 => closed_fd_fails P K2 _ fd k6, k7⟩

/-- C3 on `K1`: the request for `clat4` on descriptor 2 is refused with `EPERM`
and the `close` goes through; `tun_alloc` returns -1, `errno` is 1 and
descriptor 2 is closed.  On `K2` the `close` fails and leaves its own 5. -/
theorem tun_alloc_rejected_witness :
    (sys_ioctl_TUNSETIFF linux K1 w0 2 (tun_alloc_ifr linux "clat4".toList)).1 < 0 ∧
    (tun_alloc linux K1 0 w0 "clat4".toList 2).1 = -1 ∧
    (tun_alloc linux K1 0 w0 "clat4".toList 2).2.2.errno = 1 ∧
    (tun_alloc linux K1 0 w0 "clat4".toList 2).2.2.isOpen 2 = false ∧
    (tun_alloc linux K2 0 w0 "clat4".toList 2).2.2.errno = 5 :=
  have h := tun_alloc_rejected linux K1 0 w0 "clat4".toList 2 (by decide)
  have k := tun_alloc_rejected linux K2 0 w0 "clat4".toList 2 (by decide)
  ⟨by decide, h.1.trans (by decide), (h.2.2.2.1 (by decide)).trans (by decide),
    h.2.2.2.2.2.2.1, k.2.2.2.2.2.1 5 (by decide) (by decide)⟩

/-- C3, as the claim has it, fails: on `K2` the request for `clat4` on
descriptor 2 is refused with `EBUSY` (16), the `close` that follows reports
`EIO` (5), and `tun_alloc` returns -1 with 5 in `errno`: the error number of
the rejected request is gone. -/
theorem tun_alloc_errno_overwritten :
    (sys_ioctl_TUNSETIFF linux K2 w0 2 (tun_alloc_ifr linux "clat4".toList)).1 < 0 ∧
    (sys_ioctl_TUNSETIFF linux K2 w0 2 (tun_alloc_ifr linux "clat4".toList)).2.2.errno = 16 ∧
    (tun_alloc linux K2 0 w0 "clat4".toList 2).1 = -1 ∧
    (tun_alloc linux K2 0 w0 "clat4".toList 2).2.2.errno = 5 ∧
    (tun_alloc linux K2 0 w0 "clat4".toList 2).2.2.errno ≠
      (sys_ioctl_TUNSETIFF linux K2 w0 2 (tun_alloc_ifr linux "clat4".toList)).2.2.errno := by
  decide

/-- C4: when the `TUNSETIFF` request of `tun_alloc` is accepted, `tun_alloc`
returns 0, `fd` is still open, and the caller's buffer holds the string of the
name array the kernel wrote back into the request (the buffer is the `strcpy`
of that array).  The value of `rx_checksum_offloaded` and the fate of the
`TUNSETNOCSUM` request do not matter: any kernel that accepts the request with
the same name gives the same return value and the same buffer, for any value
of the flag. -/
theorem tun_alloc_accepted (P : Platform) (K : Kernel) (rx : Int) (w : World)
    (dev : List Char) (fd : Int)
    (h : 0 ≤ (sys_ioctl_TUNSETIFF P K w fd (tun_alloc_ifr P dev)).1) :
    (tun_alloc P K rx w dev fd).1 = 0 ∧
    (tun_alloc P K rx w dev fd).2.2.isOpen fd = true ∧
    (sys_ioctl_TUNSETIFF P K w fd (tun_alloc_ifr P dev)).2.1.ifr_name =
      K.confirmed_name w fd (tun_alloc_ifr P dev) ∧
    (tun_alloc P K rx w dev fd).2.1 =
      strcpy dev (sys_ioctl_TUNSETIFF P K w fd (tun_alloc_ifr P dev)).2.1.ifr_name ∧
    cstr (tun_alloc P K rx w dev fd).2.1 =
      cstr (sys_ioctl_TUNSETIFF P K w fd (tun_alloc_ifr P dev)).2.1.ifr_name ∧
    (∀ (K2 : Kernel) (rx2 : Int),
      K2.reject w (.ioctl_TUNSETIFF fd (tun_alloc_ifr P dev)) = none →
      K2.confirmed_name w fd (tun_alloc_ifr P dev) =
        K.confirmed_name w fd (tun_alloc_ifr P dev) →
      (tun_alloc P K2 rx2 w dev fd).1 = (tun_alloc P K rx w dev fd).1 ∧
      (tun_alloc P K2 rx2 w dev fd).2.1 = (tun_alloc P K rx w dev fd).2.1) := by
  have hneg : ¬ ((0 : Int) ≤ -1) := by decide
  rcases tun_alloc_cases P K rx w dev fd with ⟨ho, hq, ht⟩ | ⟨ho, e, _, hq, ht⟩ |
    ⟨ho, _, hq, ht⟩
  · rw [hq] at h; exact absurd h hneg
  · rw [hq] at h; exact absurd h hneg
  · rw [ht, hq]
    refine ⟨rfl, ?_, rfl, rfl, cstr_strcpy _ _, ?_⟩
    · simp only []
      split
      · rw [isOpen_congr (sys_ioctl_TUNSETNOCSUM_trace P K _ fd 1).2]
        simpa using ho
      · simpa using ho
    · intro K2 rx2 h1 h2
      rcases tun_alloc_cases P K2 rx2 w dev fd with ⟨ho2, _, _⟩ | ⟨_, e, he, _, _⟩ |
        ⟨_, _, _, ht2⟩
      · rw [ho] at ho2; cases ho2
      · rw [h1] at he; cases he
      · rw [ht2, h2]
        exact ⟨rfl, rfl⟩

/-- C4 on `K0`: `/dev/tun` is missing, `tun_open` returns the descriptor of
`/dev/net/tun`, and `tun_alloc` for `clat4` on it returns 0 with `clat4` in the
buffer. -/
theorem tun_alloc_accepted_witness :
    0 ≤ (sys_ioctl_TUNSETIFF linux K0 (tun_open linux K0 w0).2 (tun_open linux K0 w0).1
      (tun_alloc_ifr linux "clat4".toList)).1 ∧
    (tun_alloc linux K0 1 (tun_open linux K0 w0).2 "clat4".toList
      (tun_open linux K0 w0).1).1 = 0 ∧
    cstr (tun_alloc linux K0 1 (tun_open linux K0 w0).2 "clat4".toList
      (tun_open linux K0 w0).1).2.1 = "clat4".toList :=
  have h := tun_alloc_accepted linux K0 1 (tun_open linux K0 w0).2 "clat4".toList
    (tun_open linux K0 w0).1 (by decide)
  ⟨by decide, h.1, h.2.2.2.2.1.trans (by decide)⟩

/-- C5: the calls `tun_alloc` issues start with the `TUNSETIFF` request, which
is issued once and only once; a `TUNSETNOCSUM` request is among them exactly
when the `TUNSETIFF` request was accepted and `rx_checksum_offloaded` is not
zero, and then it is `ioctl(fd, TUNSETNOCSUM, 1)` and the last call; when
`rx_checksum_offloaded` is zero nothing follows the `TUNSETIFF` request but
the `close` of the failure path. -/
theorem tun_alloc_requests (P : Platform) (K : Kernel) (rx : Int) (w : World)
    (dev : List Char) (fd : Int) :
    ∃ evs : List Syscall,
      (tun_alloc P K rx w dev fd).2.2.trace =
        w.trace ++ .ioctl_TUNSETIFF fd (tun_alloc_ifr P dev) :: evs ∧
      (∀ fd2 ifr2, Syscall.ioctl_TUNSETIFF fd2 ifr2 ∉ evs) ∧
      ((∃ fd2 arg, Syscall.ioctl_TUNSETNOCSUM fd2 arg ∈ evs) ↔
        0 ≤ (sys_ioctl_TUNSETIFF P K w fd (tun_alloc_ifr P dev)).1 ∧ rx ≠ 0) ∧
      (0 ≤ (sys_ioctl_TUNSETIFF P K w fd (tun_alloc_ifr P dev)).1 → rx ≠ 0 →
        evs = [.ioctl_TUNSETNOCSUM fd 1]) ∧
      (0 ≤ (sys_ioctl_TUNSETIFF P K w fd (tun_alloc_ifr P dev)).1 → rx = 0 → evs = []) ∧
      ((sys_ioctl_TUNSETIFF P K w fd (tun_alloc_ifr P dev)).1 < 0 → evs = [.close fd]) := by
  have hneg : ¬ ((0 : Int) ≤ -1) := by decide
  have hneg2 : ((-1 : Int) < 0) := by decide
  have hzero : ¬ ((0 : Int) < 0) := by decide
  rcases tun_alloc_cases P K rx w dev fd with ⟨ho, hq, ht⟩ | ⟨ho, e, _, hq, ht⟩ |
    ⟨ho, _, hq, ht⟩
  · refine ⟨[.close fd], ?_, ?_, ?_, ?_, ?_, ?_⟩
    · rw [ht]; simp
    · intro fd2 ifr2; simp
    · rw [hq]; simp
    · rw [hq]; intro h; exact absurd h hneg
    · rw [hq]; intro h; exact absurd h hneg
    · intro _; rfl
  · refine ⟨[.close fd], ?_, ?_, ?_, ?_, ?_, ?_⟩
    · rw [ht]; simp
    · intro fd2 ifr2; simp
    · rw [hq]; simp
    · rw [hq]; intro h; exact absurd h hneg
    · rw [hq]; intro h; exact absurd h hneg
    · intro _; rfl
  · by_cases hrx : rx = 0
    · refine ⟨[], ?_, ?_, ?_, ?_, ?_, ?_⟩
      · rw [ht]; simp [hrx]
      · intro fd2 ifr2; simp
      · simp [hrx]
      · intro _ h; exact absurd hrx h
      · intro _ _; rfl
      · rw [hq]; intro h; exact absurd h hzero
    · refine ⟨[.ioctl_TUNSETNOCSUM fd 1], ?_, ?_, ?_, ?_, ?_, ?_⟩
      · rw [ht]
        simp only []
        rw [if_pos hrx, (sys_ioctl_TUNSETNOCSUM_trace P K _ fd 1).1]
        simp
      · intro fd2 ifr2; simp
      · rw [hq]; simp [hrx]
      · intro _ _; rfl
      · intro _ h; exact absurd h hrx
      · rw [hq]; intro h; exact absurd h hzero

theorem tun_alloc_first_call (P : Platform) (K : Kernel) (rx : Int) (w : World)
    (dev : List Char) (fd : Int) :
    (tun_alloc P K rx w dev fd).2.2.trace[w.trace.length]? =
      some (.ioctl_TUNSETIFF fd (tun_alloc_ifr P dev)) := by
  have key : ∃ evs, (tun_alloc P K rx w dev fd).2.2.trace =
      w.trace ++ .ioctl_TUNSETIFF fd (tun_alloc_ifr P dev) :: evs := by
    rcases tun_alloc_cases P K rx w dev fd with ⟨_, _, ht⟩ | ⟨_, e, _, _, ht⟩ | ⟨_, _, _, ht⟩
    · exact ⟨[.close fd], by rw [ht]; simp⟩
    · exact ⟨[.close fd], by rw [ht]; simp⟩
    · rw [ht]
      simp only []
      split
      · exact ⟨[.ioctl_TUNSETNOCSUM fd 1], by
          rw [(sys_ioctl_TUNSETNOCSUM_trace P K _ fd 1).1]; simp⟩
      · exact ⟨[], by simp⟩
  obtain ⟨evs, he⟩ := key
  rw [he, List.getElem?_append_right (Nat.le_refl _)]
  simp

/-- C2: the `TUNSETIFF` request `tun_alloc` issues carries a name array of
exactly `IFNAMSIZ` characters whose last character is the terminator, so the
string in it is shorter than `IFNAMSIZ`; that string is the first
`IFNAMSIZ - 1` characters of the supplied name.  For a name of `IFNAMSIZ` or
more characters the array is those `IFNAMSIZ - 1` characters followed by one
terminator; a shorter name is copied unchanged and padded with terminators. -/
theorem tun_alloc_request_name (P : Platform) (K : Kernel) (rx : Int) (w : World)
    (dev : List Char) (fd : Int) (h : 0 < P.IFNAMSIZ) :
    (tun_alloc P K rx w dev fd).2.2.trace[w.trace.length]? =
      some (.ioctl_TUNSETIFF fd (tun_alloc_ifr P dev)) ∧
    (tun_alloc_ifr P dev).ifr_name.length = P.IFNAMSIZ ∧
    (tun_alloc_ifr P dev).ifr_name[P.IFNAMSIZ - 1]? = some NUL ∧
    (cstr (tun_alloc_ifr P dev).ifr_name).length < P.IFNAMSIZ ∧
    cstr (tun_alloc_ifr P dev).ifr_name = (cstr dev).take (P.IFNAMSIZ - 1) ∧
    (P.IFNAMSIZ ≤ (cstr dev).length →
      (tun_alloc_ifr P dev).ifr_name = (cstr dev).take (P.IFNAMSIZ - 1) ++ [NUL]) ∧
    ((cstr dev).length < P.IFNAMSIZ →
      (tun_alloc_ifr P dev).ifr_name =
        cstr dev ++ List.replicate (P.IFNAMSIZ - (cstr dev).length) NUL ∧
      cstr (tun_alloc_ifr P dev).ifr_name = cstr dev) := by
  have hn := tun_alloc_ifr_name P dev h
  have hc : cstr (tun_alloc_ifr P dev).ifr_name = (cstr dev).take (P.IFNAMSIZ - 1) := by
    rw [hn]; exact cstr_append_replicate _ _ (take_no_nul dev _)
  have hlen : (tun_alloc_ifr P dev).ifr_name.length = P.IFNAMSIZ := by
    rw [hn]
    simp only [List.length_append, List.length_take, List.length_replicate]
    omega
  refine ⟨tun_alloc_first_call P K rx w dev fd, hlen, ?_, ?_, hc, ?_, ?_⟩
  · rw [hn, List.getElem?_append_right (by simp)]
    rw [List.getElem?_replicate]
    simp only [List.length_take]
    rw [if_pos (by omega)]
  · rw [hc, List.length_take]; omega
  · intro hl
    rw [hn]
    have e2 : P.IFNAMSIZ - min (P.IFNAMSIZ - 1) (cstr dev).length = 1 := by omega
    rw [e2]; rfl
  · intro hl
    have e1 : min (P.IFNAMSIZ - 1) (cstr dev).length = (cstr dev).length := by omega
    have e3 : (cstr dev).take (P.IFNAMSIZ - 1) = cstr dev :=
      List.take_of_length_le (by omega)
    refine ⟨?_, hc.trans e3⟩
    rw [hn, e1, e3]

/-- C2 with the Linux constants: a name of 20 characters is cut to 15 and a
terminator, the name `clat4` is kept. -/
theorem tun_alloc_request_name_witness :
    0 < linux.IFNAMSIZ ∧
    (tun_alloc_ifr linux "clat4clat4clat4clat4".toList).ifr_name =
      "clat4clat4clat4".toList ++ [NUL] ∧
    cstr (tun_alloc_ifr linux "clat4".toList).ifr_name = "clat4".toList :=
  have h1 := tun_alloc_request_name linux K0 0 w0 "clat4clat4clat4clat4".toList 2 (by decide)
  have h2 := tun_alloc_request_name linux K0 0 w0 "clat4".toList 2 (by decide)
  ⟨by decide, (h1.2.2.2.2.2.1 (by decide)).trans (by decide),
    (h2.2.2.2.2.2.2 (by decide)).2.trans (by decide)⟩

/-! ## set_nonblocking -/

theorem lor_lor_self (a b : Nat) : (a ||| b) ||| b = a ||| b := by
  apply Nat.eq_of_testBit_eq
  intro i
  simp only [Nat.testBit_lor, Bool.or_assoc, Bool.or_self]

theorem int_lor_cast (a b : Nat) : Int.lor (a : Int) (b : Int) = ((a ||| b : Nat) : Int) := rfl

theorem sys_fcntl_GETFL_cases (P : Platform) (K : Kernel) (w : World) (fd : Int) :
    ((sys_fcntl_GETFL P K w fd).1 = -1 ∧
      (sys_fcntl_GETFL P K w fd).2.fl = w.fl ∧
      (sys_fcntl_GETFL P K w fd).2.trace = w.trace ++ [.fcntl_GETFL fd]) ∨
    (w.isOpen fd = true ∧
      sys_fcntl_GETFL P K w fd = ((w.fl fd.toNat : Int), w.log (.fcntl_GETFL fd))) := by
  cases ho : w.isOpen fd with
  | false => left; rw [sys_fcntl_GETFL_badf ho]; exact ⟨rfl, rfl, rfl⟩
  | true =>
    cases hr : K.reject w (.fcntl_GETFL fd) with
    | some e => left; rw [sys_fcntl_GETFL_err ho hr]; exact ⟨rfl, rfl, rfl⟩
    | none => right; exact ⟨rfl, sys_fcntl_GETFL_ok ho hr⟩

theorem sys_fcntl_SETFL_cases (P : Platform) (K : Kernel) (w : World) (fd arg : Int) :
    ((sys_fcntl_SETFL P K w fd arg).1 = -1) ∨
    (sys_fcntl_SETFL P K w fd arg =
      (0, { w.log (.fcntl_SETFL fd arg) with
            fl := Function.update w.fl fd.toNat arg.toNat })) := by
  cases ho : w.isOpen fd with
  | false => left; simp [sys_fcntl_SETFL, ho]
  | true =>
    cases hr : K.reject w (.fcntl_SETFL fd arg) with
    | some e => left; simp [sys_fcntl_SETFL, ho, hr]
    | none => right; exact sys_fcntl_SETFL_ok ho hr

theorem set_nonblocking_of_read (P : Platform) (K : Kernel) (w : World) (fd : Int)
    (h : (sys_fcntl_GETFL P K w fd).1 ≠ -1) :
    w.isOpen fd = true ∧
    set_nonblocking P K w fd =
      sys_fcntl_SETFL P K (w.log (.fcntl_GETFL fd)) fd
        ((w.fl fd.toNat ||| P.O_NONBLOCK : Nat) : Int) := by
  rcases sys_fcntl_GETFL_cases P K w fd with ⟨h1, _⟩ | ⟨ho, hg⟩
  · exact absurd h1 h
  · refine ⟨ho, ?_⟩
    simp only [set_nonblocking, hg]
    rw [if_neg (by omega), int_lor_cast]

theorem set_nonblocking_of_read_write (P : Platform) (K : Kernel) (w : World) (fd : Int)
    (hr : (sys_fcntl_GETFL P K w fd).1 ≠ -1)
    (hw : (sys_fcntl_SETFL P K (sys_fcntl_GETFL P K w fd).2 fd
      (Int.lor (sys_fcntl_GETFL P K w fd).1 (P.O_NONBLOCK : Int))).1 ≠ -1) :
    (set_nonblocking P K w fd).1 = 0 ∧
    (set_nonblocking P K w fd).2.fl =
      Function.update w.fl fd.toNat (w.fl fd.toNat ||| P.O_NONBLOCK) ∧
    (set_nonblocking P K w fd).2.trace =
      w.trace ++ [.fcntl_GETFL fd,
        .fcntl_SETFL fd ((w.fl fd.toNat ||| P.O_NONBLOCK : Nat) : Int)] := by
  obtain ⟨_, hs⟩ := set_nonblocking_of_read P K w fd hr
  rcases sys_fcntl_GETFL_cases P K w fd with ⟨h1, _⟩ | ⟨ho, hg⟩
  · exact absurd h1 hr
  · rw [hg] at hw
    simp only [int_lor_cast] at hw
    rcases sys_fcntl_SETFL_cases P K (w.log (.fcntl_GETFL fd)) fd
      ((w.fl fd.toNat ||| P.O_NONBLOCK : Nat) : Int) with h2 | h2
    · exact absurd h2 hw
    · rw [hs, h2]
      refine ⟨rfl, ?_, ?_⟩
      · simp
      · simp

/-- C9: when the two `fcntl` calls of `set_nonblocking` succeed, in a first
and in a second application, both applications return 0 and the status flags
after the second are those after the first: the flags of `fd` are the original
ones with the bits of `O_NONBLOCK` added and no other bit changed, the flags of
other descriptors are untouched.  When reading the flags fails,
`set_nonblocking` returns -1, the only call issued is the `F_GETFL` one and no
flags change. -/
theorem set_nonblocking_idempotent (P : Platform) (K : Kernel) (w : World) (fd : Int) :
    ((sys_fcntl_GETFL P K w fd).1 ≠ -1 →
      (sys_fcntl_SETFL P K (sys_fcntl_GETFL P K w fd).2 fd
        (Int.lor (sys_fcntl_GETFL P K w fd).1 (P.O_NONBLOCK : Int))).1 ≠ -1 →
      (sys_fcntl_GETFL P K (set_nonblocking P K w fd).2 fd).1 ≠ -1 →
      (sys_fcntl_SETFL P K (sys_fcntl_GETFL P K (set_nonblocking P K w fd).2 fd).2 fd
        (Int.lor (sys_fcntl_GETFL P K (set_nonblocking P K w fd).2 fd).1
          (P.O_NONBLOCK : Int))).1 ≠ -1 →
      (set_nonblocking P K w fd).1 = 0 ∧
      (set_nonblocking P K (set_nonblocking P K w fd).2 fd).1 = 0 ∧
      (set_nonblocking P K (set_nonblocking P K w fd).2 fd).2.fl =
        (set_nonblocking P K w fd).2.fl ∧
      (set_nonblocking P K w fd).2.fl fd.toNat = w.fl fd.toNat ||| P.O_NONBLOCK ∧
      (∀ i, ((set_nonblocking P K w fd).2.fl fd.toNat).testBit i =
        ((w.fl fd.toNat).testBit i || P.O_NONBLOCK.testBit i)) ∧
      (∀ d, d ≠ fd.toNat → (set_nonblocking P K w fd).2.fl d = w.fl d)) ∧
    ((sys_fcntl_GETFL P K w fd).1 = -1 →
      (set_nonblocking P K w fd).1 = -1 ∧
      (set_nonblocking P K w fd).2.fl = w.fl ∧
      (set_nonblocking P K w fd).2.trace = w.trace ++ [.fcntl_GETFL fd]) := by
  constructor
  · intro hr1 hw1 hr2 hw2
    obtain ⟨a1, a2, _⟩ := set_nonblocking_of_read_write P K w fd hr1 hw1
    obtain ⟨b1, b2, _⟩ :=
      set_nonblocking_of_read_write P K (set_nonblocking P K w fd).2 fd hr2 hw2
    refine ⟨a1, b1, ?_, ?_, ?_, ?_⟩
    · rw [b2, a2]
      simp only [Function.update_same, lor_lor_self, Function.update_idem]
    · rw [a2]; simp
    · intro i
      rw [a2]; simp [Nat.testBit_lor]
    · intro d hd
      rw [a2, Function.update_noteq hd]
  · intro h
    have e : set_nonblocking P K w fd = (-1, (sys_fcntl_GETFL P K w fd).2) := by
      simp only [set_nonblocking]
      rw [if_pos h, h]
    rcases sys_fcntl_GETFL_cases P K w fd with ⟨_, h2, h3⟩ | ⟨_, hg⟩
    · rw [e]; exact ⟨rfl, h2, h3⟩
    · rw [hg] at h
      simp only [] at h
      omega

/-- C9 on `K0` and descriptor 1: flags 2 become 2050 and stay 2050; on `K1`
reading the flags fails and the result is -1. -/
theorem set_nonblocking_idempotent_witness :
    (set_nonblocking linux K0 w0 1).1 = 0 ∧
    (set_nonblocking linux K0 (set_nonblocking linux K0 w0 1).2 1).1 = 0 ∧
    (set_nonblocking linux K0 (set_nonblocking linux K0 w0 1).2 1).2.fl =
      (set_nonblocking linux K0 w0 1).2.fl ∧
    (set_nonblocking linux K0 w0 1).2.fl 1 = 2050 ∧
    (set_nonblocking linux K1 w0 1).1 = -1 :=
  have h := (set_nonblocking_idempotent linux K0 w0 1).1
    (by decide) (by decide) (by decide) (by decide)
  ⟨h.1, h.2.1, h.2.2.1, h.2.2.2.1.trans (by decide),
    ((set_nonblocking_idempotent linux K1 w0 1).2 (by decide)).1⟩

/-- C6: `tun_open` opens `/dev/tun` first.  When that call gives a descriptor,
`tun_open` returns it and issues no other call.  When it fails, `tun_open`
opens `/dev/net/tun` next and returns what that call returns: the new
descriptor when it goes through, and otherwise a negative value, with the set
of open descriptors as it was before. -/
theorem tun_open_spec (P : Platform) (K : Kernel) (w : World) :
    (0 ≤ (sys_open K w "/dev/tun" P.O_RDWR).1 →
      (tun_open P K w).1 = (sys_open K w "/dev/tun" P.O_RDWR).1 ∧
      (tun_open P K w).2.trace = w.trace ++ [.open_ "/dev/tun" P.O_RDWR] ∧
      (tun_open P K w).2.isOpen (tun_open P K w).1 = true ∧
      (tun_open P K w).2.fds = (tun_open P K w).1.toNat :: w.fds ∧
      w.isOpen (tun_open P K w).1 = false) ∧
    ((sys_open K w "/dev/tun" P.O_RDWR).1 < 0 →
      (tun_open P K w).1 =
        (sys_open K (sys_open K w "/dev/tun" P.O_RDWR).2 "/dev/net/tun" P.O_RDWR).1 ∧
      (tun_open P K w).2.trace =
        w.trace ++ [.open_ "/dev/tun" P.O_RDWR, .open_ "/dev/net/tun" P.O_RDWR] ∧
      (0 ≤ (sys_open K (sys_open K w "/dev/tun" P.O_RDWR).2 "/dev/net/tun" P.O_RDWR).1 →
        (tun_open P K w).2.isOpen (tun_open P K w).1 = true ∧
        (tun_open P K w).2.fds = (tun_open P K w).1.toNat :: w.fds ∧
        w.isOpen (tun_open P K w).1 = false) ∧
      ((sys_open K (sys_open K w "/dev/tun" P.O_RDWR).2 "/dev/net/tun" P.O_RDWR).1 < 0 →
        (tun_open P K w).1 < 0 ∧ (tun_open P K w).2.fds = w.fds)) := by
  have hneg : ((-1 : Int) < 0) := by decide
  have hneg2 : ¬ ((0 : Int) ≤ -1) := by decide
  have hfresh : w.isOpen (lowestFree w.fds : Int) = false := by
    simp [World.isOpen, lowestFree_not_mem]
  cases h1 : K.reject w (.open_ "/dev/tun" P.O_RDWR) with
  | none =>
    have hp := sys_open_ok h1
    have ht : tun_open P K w = ((lowestFree w.fds : Int),
        w.alloc (.open_ "/dev/tun" P.O_RDWR) P.O_RDWR) := by
      simp only [tun_open, hp]
      rw [if_neg (by simp)]
    rw [hp, ht]
    refine ⟨fun _ => ⟨rfl, rfl, by simp, by simp, hfresh⟩, fun h => ?_⟩
    simp only [] at h
    omega
  | some e =>
    have hp := sys_open_err h1
    rw [hp]
    refine ⟨fun h => absurd h hneg2, fun _ => ?_⟩
    cases h2 : K.reject (w.fail (.open_ "/dev/tun" P.O_RDWR) e)
        (.open_ "/dev/net/tun" P.O_RDWR) with
    | none =>
      have hf := sys_open_ok h2
      have ht : tun_open P K w = ((lowestFree w.fds : Int),
          (w.fail (.open_ "/dev/tun" P.O_RDWR) e).alloc
            (.open_ "/dev/net/tun" P.O_RDWR) P.O_RDWR) := by
        simp only [tun_open, hp]
        rw [if_pos hneg, hf]
        rfl
      simp only []
      rw [hf, ht]
      refine ⟨rfl, by simp, fun _ => ⟨?_, by simp, hfresh⟩, fun h => ?_⟩
      · simp [World.isOpen]
      · simp only [fail_fds] at h
        omega
    | some e2 =>
      have hf := sys_open_err h2
      have ht : tun_open P K w = (-1,
          (w.fail (.open_ "/dev/tun" P.O_RDWR) e).fail
            (.open_ "/dev/net/tun" P.O_RDWR) e2) := by
        simp only [tun_open, hp]
        rw [if_pos hneg, hf]
      simp only []
      rw [hf, ht]
      exact ⟨rfl, by simp, fun h => absurd h hneg2, fun _ => ⟨hneg, rfl⟩⟩

/-- C6 on `K0` (fallback taken, descriptor 3) and on `K1` (both paths fail). -/
theorem tun_open_spec_witness :
    (sys_open K0 w0 "/dev/tun" linux.O_RDWR).1 < 0 ∧
    0 ≤ (sys_open K0 (sys_open K0 w0 "/dev/tun" linux.O_RDWR).2 "/dev/net/tun"
      linux.O_RDWR).1 ∧
    (tun_open linux K0 w0).1 = 3 ∧
    (tun_open linux K0 w0).2.fds = [3, 0, 1, 2] ∧
    (tun_open linux K1 w0).1 < 0 ∧
    (tun_open linux K1 w0).2.fds = w0.fds :=
  have h := (tun_open_spec linux K0 w0).2 (by decide)
  have k := ((tun_open_spec linux K1 w0).2 (by decide)).2.2.2 (by decide)
  ⟨by decide, by decide, h.1.trans (by decide), (h.2.2.1 (by decide)).2.1.trans (by decide),
    k.1, k.2⟩

/-- C8 on `K0` (feature reported) and `K1` (no endpoint) for `wlan0`. -/
theorem get_ethtool_feature_val_spec_witness :
    (get_ethtool_feature_val linux K0 w0 (some "wlan0".toList) linux.ETHTOOL_GGRO).1 = 1 ∧
    (get_ethtool_feature_val linux K1 w0 (some "wlan0".toList) linux.ETHTOOL_GGRO).1 ≠ 1 ∧
    (get_ethtool_feature_val linux K0 w0 (some "wlan0".toList) linux.ETHTOOL_GGRO).2.trace =
      [.socket 2 2 0,
        .ioctl_SIOCETHTOOL 3 ("wlan0".toList ++ List.replicate 11 NUL) { cmd := 43, data := 0 },
        .close 3] :=
  have h := get_ethtool_feature_val_spec linux K0 w0 "wlan0".toList linux.ETHTOOL_GGRO
  have k := get_ethtool_feature_val_spec linux K1 w0 "wlan0".toList linux.ETHTOOL_GGRO
  ⟨h.2.1.2 ⟨by decide, by decide, by decide⟩,
    fun e => absurd (k.2.1.1 e).1 (by decide),
    (h.2.2.1 (by decide)).trans (by decide)⟩

/-- C10 on `K0` for `wlan0`: descriptors 0, 1, 2 before and after. -/
theorem get_ethtool_feature_val_closes_witness :
    (get_ethtool_feature_val linux K0 w0 (some "wlan0".toList) 43).2.fds = [0, 1, 2] ∧
    (check_csum_offload linux K0 w0 (some "wlan0".toList)).2.fds = [0, 1, 2] ∧
    (get_ethtool_feature_val linux K0 w0 (some "wlan0".toList) 43).2.trace.getLast? =
      some (.close 3) :=
  have h := get_ethtool_feature_val_closes linux K0 w0 (some "wlan0".toList) 43
  ⟨h.1, h.2.1, (h.2.2.1 (by decide) (by decide)).1.trans (by decide)⟩

/-- C1 on `K0` (both features), for the null pointer, and on `K1`. -/
theorem check_csum_offload_iff_witness :
    (check_csum_offload linux K0 w0 (some "wlan0".toList)).1 = 1 ∧
    (check_csum_offload linux K0 w0 none).1 = 0 ∧
    (check_csum_offload linux K1 w0 (some "wlan0".toList)).1 = 0 :=
  ⟨(check_csum_offload_iff linux K0 w0 (some "wlan0".toList)).1.2
      ⟨by decide, by decide, by decide⟩,
    (check_csum_offload_iff linux K0 w0 none).2.2 (Or.inl rfl),
    (check_csum_offload_iff linux K1 w0 (some "wlan0".toList)).2.2
      (Or.inr (Or.inl (by decide)))⟩

end Tun
